import Mathlib

/-!
Verification of the hero-section wave-band animation
(`src/assets/javascript/script.js`).

The numeric core of the program is embedded shallowly below.  Scalar
helpers that involve only field arithmetic, comparisons and floor are
defined polymorphically over a `LinearOrderedField` (with a `FloorRing`
where the source uses `Math.floor` / `%`), so the same definition can be
evaluated on `ℚ` and reasoned about topologically on `ℝ`.  The parts of
the source that use transcendental functions (`sin`, `exp`, `pow`,
`atan`, `sqrt`, `Math.PI`) are embedded over `ℝ`.
-/

namespace HeroWave

variable {K : Type} [LinearOrderedField K]

/-- GLSL `mix(x, y, a) = x * (1 - a) + y * a`. -/
def glslMix (x y a : K) : K := x * (1 - a) + y * a

/-- GLSL `clamp(x, lo, hi) = min(max(x, lo), hi)`. -/
def glslClamp (x lo hi : K) : K := min (max x lo) hi

/-- GLSL `smoothstep(edge0, edge1, x)`: clamp the normalized position to
`[0,1]` and apply the cubic `t * t * (3 - 2 * t)`. -/
def glslSmoothstep (edge0 edge1 x : K) : K :=
  let t := glslClamp ((x - edge0) / (edge1 - edge0)) 0 1
  t * t * (3 - 2 * t)

/-- JavaScript truncation (`Math.trunc`), which JS `%` is defined from:
rounds toward zero. -/
def jsTrunc [FloorRing K] (x : K) : ℤ := if 0 ≤ x then ⌊x⌋ else ⌈x⌉

/-- JavaScript remainder `a % b = a - b * trunc (a / b)` (for finite
operands). -/
def jsMod [FloorRing K] (a b : K) : K := a - b * (jsTrunc (a / b) : K)

/-- GLSL `mod(x, y) = x - y * floor(x / y)` (floored, unlike JS `%`). -/
def glslMod [FloorRing K] (x y : K) : K := x - y * (⌊x / y⌋ : K)

/-- THREE.js `Vector2.lerp` / scalar exponential smoothing step:
`value + (target - value) * alpha`. -/
def lerp (value target alpha : K) : K := value + (target - value) * alpha

/-- `updateMouse` (script.js line 385): `mouse.lerp(targetMouse, 0.05)`,
componentwise on the 2D mouse vector. -/
def updateMouse (mouse targetMouse : K × K) : K × K :=
  (lerp mouse.1 targetMouse.1 0.05, lerp mouse.2 targetMouse.2 0.05)

/-- `updateScroll` (script.js line 401):
`scrollY += (targetScrollY - scrollY) * scrollSpeed` with
`scrollSpeed = 0.02`. -/
def updateScroll (scrollY targetScrollY : K) : K :=
  scrollY + (targetScrollY - scrollY) * 0.02

/-- Per-band visibility smoothing inside `animate` (script.js line 524):
`uniforms.uVisibility.value += (targetVisibility - currentVisibility) * 0.08`. -/
def visibilityStep (current target : K) : K :=
  current + (target - current) * 0.08

/-- `getCurrentSection` (script.js line 406):
`Math.min(Math.floor(scrollY / viewportHeight), 2)`. -/
def getCurrentSection [FloorRing K] (scrollY viewportHeight : K) : ℤ :=
  min ⌊scrollY / viewportHeight⌋ 2

/-- `getSectionVisibility` (script.js line 413): distance from the
current section decides the target visibility 1.0 / 0.25 / 0.0. -/
def getSectionVisibility [FloorRing K] (scrollY viewportHeight : K)
    (lineSection : ℤ) : K :=
  let currentSection := getCurrentSection scrollY viewportHeight
  let distance := |currentSection - lineSection|
  if distance = 0 then 1.0
  else if distance = 1 then 0.25
  else 0.0

/-- `smoothEase` (script.js line 423): cubic ease-in-out
`t < 0.5 ? 4t³ : 1 - (-2t + 2)³ / 2`. -/
def smoothEase (t : K) : K :=
  if t < 0.5 then 4 * t * t * t
  else 1 - (-2 * t + 2) ^ 3 / 2

/-- `getSectionProgress` (script.js line 430):
`(scrollY % viewportHeight) / viewportHeight`. -/
def getSectionProgress [FloorRing K] (scrollY viewportHeight : K) : K :=
  jsMod scrollY viewportHeight / viewportHeight

/-- `getInterpolationFactor` (script.js line 437): `smoothEase` of the
normalized progress past 0.7, in the last 30% of a section, only when
the current section is not the last one. -/
def getInterpolationFactor [FloorRing K] (scrollY viewportHeight : K) : K :=
  let currentSection := getCurrentSection scrollY viewportHeight
  let sectionProgress := jsMod scrollY viewportHeight / viewportHeight
  if 0.7 < sectionProgress ∧ currentSection < 2 then
    smoothEase ((sectionProgress - 0.7) / 0.3)
  else 0.0

/-- A 3-component vector of the fragment shader (`vec3`). -/
structure Vec3 (α : Type) where
  x : α
  y : α
  z : α
deriving DecidableEq

/-- GLSL `mix` on `vec3`, componentwise. -/
def mix3 (a b : Vec3 K) (t : K) : Vec3 K :=
  ⟨glslMix a.x b.x t, glslMix a.y b.y t, glslMix a.z b.z t⟩

/-- `smoothGradient` from the fragment shader (script.js lines 178-199):
the blue → violet → magenta → orange palette blended by four
overlapping smoothsteps, plus a final pull of strength `t4 * 0.25`
toward the average of the two middle colors. -/
def smoothGradient (t : K) : Vec3 K :=
  let color1 : Vec3 K := ⟨0.4, 0.55, 0.92⟩
  let color2 : Vec3 K := ⟨0.55, 0.40, 0.95⟩
  let color3 : Vec3 K := ⟨0.88, 0.35, 0.62⟩
  let color4 : Vec3 K := ⟨1.0, 0.50, 0.32⟩
  let t1 := glslSmoothstep 0.0 0.3 t
  let t2 := glslSmoothstep 0.25 0.55 t
  let t3 := glslSmoothstep 0.5 0.8 t
  let t4 := glslSmoothstep 0.7 1.0 t
  let colorA := mix3 color1 color2 t1
  let colorB := mix3 colorA color3 t2
  let colorC := mix3 colorB color4 t3
  mix3 colorC (mix3 color2 color3 0.5) (t4 * 0.25)

/-- One line configuration record of `section1Lines` / `section2Lines` /
`section3Lines` (script.js lines 263-308).  The JS objects gain a
`lineIndex` property only when `allLineConfigs.forEach` copies them into
the wave bands (line 330); the field defaults to 0 before that. -/
structure LineConfig (α : Type) where
  sectionIndex : ℤ
  zDepth : α
  speed : α
  opacity : α
  colorIntensity : α
  amplitude : α
  frequency : α
  height : α
  verticalOffset : α
  direction : α
  curveType : α
  phaseOffset : α
  lineIndex : ℕ := 0

instance : Inhabited (LineConfig K) :=
  ⟨⟨0, 0, 0, 0, 0, 0, 0, 0, 0, 0, 0, 0, 0⟩⟩

/-- Section 1 lines (script.js line 263): 14 horizontal lines. -/
noncomputable def section1Lines : List (LineConfig ℝ) :=
  List.ofFn fun i : Fin 14 =>
    { sectionIndex := 0
      zDepth := -2.0 + (i : ℕ) * 0.3
      speed := 0.08 + (i : ℕ) * 0.003
      opacity := 0.35 + (((i : ℕ) % 3 : ℕ) : ℝ) * 0.05
      colorIntensity := 0.8 + (i : ℕ) * 0.01
      amplitude := 0.4 + (i : ℕ) * 0.02
      frequency := 0.12 + (i : ℕ) * 0.01
      height := 0.002
      verticalOffset := -6.0 + (i : ℕ) * 0.9
      direction := 0.0
      curveType := 0.0
      phaseOffset := (i : ℕ) * Real.pi * 0.15 }

/-- Section 2 lines (script.js line 279): 13 diagonal-right lines. -/
noncomputable def section2Lines : List (LineConfig ℝ) :=
  List.ofFn fun i : Fin 13 =>
    { sectionIndex := 1
      zDepth := -1.8 + (i : ℕ) * 0.3
      speed := 0.12 + (i : ℕ) * 0.004
      opacity := 0.40 + (((i : ℕ) % 3 : ℕ) : ℝ) * 0.05
      colorIntensity := 0.85 + (i : ℕ) * 0.01
      amplitude := 0.6 + (i : ℕ) * 0.03
      frequency := 0.15 + (i : ℕ) * 0.012
      height := 0.002
      verticalOffset := -5.5 + (i : ℕ) * 0.95
      direction := 1.0
      curveType := 1.0
      phaseOffset := (i : ℕ) * Real.pi * 0.18 }

/-- Section 3 lines (script.js line 295): 13 diagonal-left lines. -/
noncomputable def section3Lines : List (LineConfig ℝ) :=
  List.ofFn fun i : Fin 13 =>
    { sectionIndex := 2
      zDepth := -1.5 + (i : ℕ) * 0.3
      speed := 0.14 + (i : ℕ) * 0.005
      opacity := 0.42 + (((i : ℕ) % 3 : ℕ) : ℝ) * 0.05
      colorIntensity := 0.90 + (i : ℕ) * 0.01
      amplitude := 0.7 + (i : ℕ) * 0.035
      frequency := 0.18 + (i : ℕ) * 0.014
      height := 0.002
      verticalOffset := -5.8 + (i : ℕ) * 0.92
      direction := 2.0
      curveType := 2.0
      phaseOffset := (i : ℕ) * Real.pi * 0.20 }

/-- `allLineConfigs` (script.js line 311): concatenation of the three
section lists, 40 lines total. -/
noncomputable def allLineConfigs : List (LineConfig ℝ) :=
  section1Lines ++ section2Lines ++ section3Lines

/-- The per-band configs stored in `waveBands` (script.js lines 317-369):
`allLineConfigs.forEach((lineConfig, lineIndex) => ...)` stores
`configWithIndex = { ...lineConfig, lineIndex }`, so each band carries
its global index in the concatenated list. -/
noncomputable def bandConfigs : List (LineConfig ℝ) :=
  allLineConfigs.enum.map fun p => { p.2 with lineIndex := p.1 }

/-- The next-section config lookup inside `getInterpolatedParams`
(script.js lines 456-458): `nextSection = currentSection + 1`;
`nextSectionConfigs = nextSection === 1 ? section2Lines : section3Lines`;
`nextConfig = nextSectionConfigs[lineConfig.lineIndex % nextSectionConfigs.length]`. -/
noncomputable def nextConfigFor (lineConfig : LineConfig ℝ)
    (currentSection : ℤ) : LineConfig ℝ :=
  let nextSection := currentSection + 1
  let nextSectionConfigs :=
    if nextSection = 1 then section2Lines else section3Lines
  nextSectionConfigs.getD (lineConfig.lineIndex % nextSectionConfigs.length)
    default

/-- `getInterpolatedParams` (script.js lines 451-470): identity when the
factor is exactly 0; otherwise linear interpolation of speed, amplitude,
frequency, direction and curveType at the full factor, and of opacity at
half the factor. -/
noncomputable def getInterpolatedParams (lineConfig : LineConfig ℝ)
    (currentSection : ℤ) (interpolationFactor : ℝ) : LineConfig ℝ :=
  if interpolationFactor = 0.0 then lineConfig
  else
    let nextConfig := nextConfigFor lineConfig currentSection
    { lineConfig with
      speed := lineConfig.speed +
        (nextConfig.speed - lineConfig.speed) * interpolationFactor
      amplitude := lineConfig.amplitude +
        (nextConfig.amplitude - lineConfig.amplitude) * interpolationFactor
      frequency := lineConfig.frequency +
        (nextConfig.frequency - lineConfig.frequency) * interpolationFactor
      direction := lineConfig.direction +
        (nextConfig.direction - lineConfig.direction) * interpolationFactor
      curveType := lineConfig.curveType +
        (nextConfig.curveType - lineConfig.curveType) * interpolationFactor
      opacity := lineConfig.opacity +
        (nextConfig.opacity - lineConfig.opacity) * interpolationFactor * 0.5 }

/-- Vertex-shader `hash` (script.js line 77):
`fract(sin(n) * 43758.5453)`. -/
noncomputable def hash (n : ℝ) : ℝ := Int.fract (Real.sin n * 43758.5453)

/-- Vertex-shader `noise` (script.js line 81): bilinear value noise over
the integer lattice with smoothstep-eased fractional weights. -/
noncomputable def noise (p : ℝ × ℝ) : ℝ :=
  let i1 : ℝ := ⌊p.1⌋
  let i2 : ℝ := ⌊p.2⌋
  let f1 := Int.fract p.1
  let f2 := Int.fract p.2
  let g1 := f1 * f1 * (3.0 - 2.0 * f1)
  let g2 := f2 * f2 * (3.0 - 2.0 * f2)
  let n := i1 + i2 * 57.0
  glslMix (glslMix (hash (n + 0.0)) (hash (n + 1.0)) g1)
    (glslMix (hash (n + 57.0)) (hash (n + 58.0)) g1) g2

/-- One iteration state of the `fbm` loop (script.js lines 93-102):
each round adds `amplitude * noise p`, then doubles `p` and halves the
amplitude. -/
noncomputable def fbmGo : ℕ → ℝ × ℝ → ℝ → ℝ → ℝ
  | 0, _, _, value => value
  | k + 1, p, amplitude, value =>
      fbmGo k (p.1 * 2.0, p.2 * 2.0) (amplitude * 0.5)
        (value + amplitude * noise p)

/-- Vertex-shader `fbm` (script.js line 93): 4 octaves starting at
amplitude 0.5. -/
noncomputable def fbm (p : ℝ × ℝ) : ℝ := fbmGo 4 p 0.5 0.0

/-- Vertex-shader `getThicknessMultiplier` (script.js line 105):
`0.7 + 0.3 * sin(progress * 3.14159)`. -/
noncomputable def getThicknessMultiplier (progress : ℝ) : ℝ :=
  0.7 + 0.3 * Real.sin (progress * 3.14159)

/-- GLSL two-argument `atan(y, x)` (atan2), as the argument of the
complex number `x + y i`. -/
noncomputable def glslAtan2 (y x : ℝ) : ℝ := Complex.arg ⟨x, y⟩

/-- The uniform values a wave band's shader material receives each frame
(script.js lines 336-351 and 507-524). -/
structure Uniforms where
  uTime : ℝ
  uSpeed : ℝ
  uAmplitude : ℝ
  uFrequency : ℝ
  uNoiseScale : ℝ
  uNoiseStrength : ℝ
  uPhase : ℝ
  uVerticalOffset : ℝ
  uMouse : ℝ × ℝ
  uDirection : ℝ
  uCurveType : ℝ
  uOpacity : ℝ
  uColorIntensity : ℝ
  uVisibility : ℝ

/-- Vertex-shader `main` (script.js lines 110-162): the displaced
position of a vertex at model position `pos` with uv coordinate `uv`. -/
noncomputable def vertexDisplaced (u : Uniforms) (pos : ℝ × ℝ × ℝ)
    (uv : ℝ × ℝ) : ℝ × ℝ × ℝ :=
  let curveStrengthMult := 1.0 + u.uCurveType * 0.5
  let wavePhase := u.uFrequency * pos.1 + u.uPhase +
    glslMod (u.uTime * u.uSpeed) 6.28318
  let sineWave := Real.sin wavePhase * u.uAmplitude * curveStrengthMult
  let secondaryWave :=
    Real.sin (wavePhase * (1.5 + u.uCurveType * 0.2) +
      u.uTime * u.uSpeed * 0.5) * u.uAmplitude * 0.3 * curveStrengthMult
  let noiseCoord := (pos.1 * u.uNoiseScale + u.uTime * 0.06,
    pos.2.1 * u.uNoiseScale + u.uTime * 0.04)
  let noiseValue := fbm noiseCoord * u.uNoiseStrength * curveStrengthMult
  let mouseInfluence :=
    Real.sqrt (u.uMouse.1 ^ 2 + u.uMouse.2 ^ 2) * 0.015
  let mouseOffset :=
    Real.sin (wavePhase + glslAtan2 u.uMouse.2 u.uMouse.1 * 0.05) *
      mouseInfluence
  let verticalDisplacement := sineWave + secondaryWave + noiseValue + mouseOffset
  let px :=
    if u.uDirection < 0.5 then pos.1
    else if u.uDirection < 1.5 then pos.1 + verticalDisplacement * 0.15
    else pos.1 - verticalDisplacement * 0.15
  let py := pos.2.1 + verticalDisplacement + u.uVerticalOffset
  let thicknessMult := getThicknessMultiplier uv.1
  (px, py * thicknessMult, pos.2.2)

/-- Fragment-shader `main` (script.js lines 201-244): premultiplied
color and alpha at uv coordinate `uv`. -/
noncomputable def fragmentColor (u : Uniforms) (uv : ℝ × ℝ) : Vec3 ℝ × ℝ :=
  let vProgress := uv.1
  let distanceFromCenter := |uv.2 - 0.5| * 2.0
  let c := smoothGradient vProgress
  let color : Vec3 ℝ := ⟨c.x * u.uColorIntensity, c.y * u.uColorIntensity,
    c.z * u.uColorIntensity⟩
  let coreMask := 1.0 - glslSmoothstep 0.0 0.01 distanceFromCenter
  let glowMask := 1.0 - glslSmoothstep 0.01 0.15 distanceFromCenter
  let lineMask := max coreMask (glowMask * 0.3)
  let centerIntensity := Real.exp (-distanceFromCenter * 1.5)
  let diffusion := glslMix 0.4 1.0 centerIntensity
  let softGlow := Real.exp (-distanceFromCenter * 0.8)
  let timeIntensity := 0.88 + 0.12 * Real.sin (u.uTime * 0.3)
  let alpha0 := lineMask * diffusion * timeIntensity * u.uOpacity +
    softGlow * 0.2 * u.uOpacity
  let alpha1 := alpha0 ^ (0.75 : ℝ)
  let alpha := alpha1 * u.uVisibility
  let brightened : Vec3 ℝ :=
    ⟨color.x * (1.0 + centerIntensity * 0.3),
     color.y * (1.0 + centerIntensity * 0.3),
     color.z * (1.0 + centerIntensity * 0.3)⟩
  (⟨brightened.x * alpha, brightened.y * alpha, brightened.z * alpha⟩, alpha)

/-- The raw inputs a single animation frame consumes (script.js lines
378-399, 479-483): the clock delta and the latest raw mouse and scroll
samples. -/
structure FrameInput where
  dt : ℝ
  targetMouse : ℝ × ℝ
  targetScrollY : ℝ

/-- The mutable state of the animation loop: elapsed `time`, smoothed
`mouse`, smoothed `scrollY` (script.js lines 375-403, 476-483) and the
per-band `uVisibility` uniform values (script.js line 524). -/
structure SimState where
  time : ℝ
  mouse : ℝ × ℝ
  scrollY : ℝ
  visibilities : List ℝ

/-- One invocation of `animate` (script.js lines 479-532), restricted to
its state updates: advance the clock, smooth the inputs, and smooth each
band's visibility toward its section target (computed from the updated
scroll offset). -/
noncomputable def stepFrame (viewportHeight : ℝ) (st : SimState)
    (inp : FrameInput) : SimState :=
  let time := st.time + inp.dt
  let mouse := updateMouse st.mouse inp.targetMouse
  let scrollY := updateScroll st.scrollY inp.targetScrollY
  let visibilities :=
    (bandConfigs.zip st.visibilities).map fun p =>
      visibilityStep p.2
        (getSectionVisibility scrollY viewportHeight p.1.sectionIndex)
  { time := time, mouse := mouse, scrollY := scrollY,
    visibilities := visibilities }

/-- Replaying a whole trace of frame inputs from a starting state. -/
noncomputable def runFrames (viewportHeight : ℝ) (st : SimState)
    (trace : List FrameInput) : SimState :=
  trace.foldl (stepFrame viewportHeight) st

/-- The uniform values `animate` pushes into each band's material after
a state update (script.js lines 489-524): interpolated parameters from
the current section and interpolation factor, scroll-influenced time,
the smoothed mouse, and the smoothed visibility. -/
noncomputable def frameUniformsList (viewportHeight : ℝ) (st : SimState) :
    List Uniforms :=
  let scrollInfluence := 1.0 + st.scrollY * 0.00005
  let currentSection := getCurrentSection st.scrollY viewportHeight
  let interpolationFactor := getInterpolationFactor st.scrollY viewportHeight
  (bandConfigs.zip st.visibilities).map fun p =>
    let params := getInterpolatedParams p.1 currentSection interpolationFactor
    { uTime := st.time * scrollInfluence
      uSpeed := params.speed
      uAmplitude := params.amplitude
      uFrequency := params.frequency
      uNoiseScale := 0.05
      uNoiseStrength := 0.10
      uPhase := p.1.phaseOffset
      uVerticalOffset := p.1.verticalOffset
      uMouse := st.mouse
      uDirection := params.direction
      uCurveType := params.curveType
      uOpacity := params.opacity
      uColorIntensity := params.colorIntensity
      uVisibility := p.2 }

/-! Helper lemmas shared across the results. -/

/-- A lerp step with factor in `(0,1)` strictly shrinks the distance to
the target and keeps the sign of the remaining gap. -/
lemma lerp_toward (p t k : K) (hk0 : 0 < k) (hk1 : k < 1) (hne : p ≠ t) :
    |lerp p t k - t| < |p - t| ∧ (0 < t - lerp p t k ↔ 0 < t - p) := by
  have h1 : lerp p t k - t = (p - t) * (1 - k) := by unfold lerp; ring
  have h2 : t - lerp p t k = (t - p) * (1 - k) := by unfold lerp; ring
  have hpt : p - t ≠ 0 := sub_ne_zero.mpr hne
  have habs : 0 < |p - t| := abs_pos.mpr hpt
  have hk1' : (0 : K) < 1 - k := by linarith
  constructor
  · rw [h1, abs_mul, abs_of_pos hk1']
    nlinarith
  · rw [h2]
    constructor
    · intro h
      by_contra hle
      push_neg at hle
      nlinarith
    · intro h
      exact mul_pos h hk1'

/-- A lerp step at the target stays exactly at the target. -/
lemma lerp_fixed (t k : K) : lerp t t k = t := by unfold lerp; ring

end HeroWave

namespace HeroWave

variable {K : Type} [LinearOrderedField K]

/-- Claim C1, amended.  Every input-smoothing update computes
`new = previous + (target - previous) * k` with its fixed per-channel
constant `k ∈ (0,1)` (0.05 for the pointer, 0.02 for scroll, 0.08 for
visibility); whenever the smoothed value has not yet reached the target,
an update strictly decreases the distance to the target and never flips
the sign of the remaining gap, and once the value equals the target it
stays exactly there. -/
theorem smoothing_updates_monotone_toward_target :
    (∀ m tm : ℚ × ℚ, updateMouse m tm =
        (m.1 + (tm.1 - m.1) * 0.05, m.2 + (tm.2 - m.2) * 0.05)) ∧
    (∀ s ts : ℚ, updateScroll s ts = s + (ts - s) * 0.02) ∧
    (∀ v tv : ℚ, visibilityStep v tv = v + (tv - v) * 0.08) ∧
    ((0 : ℚ) < 0.05 ∧ (0.05 : ℚ) < 1) ∧
    ((0 : ℚ) < 0.02 ∧ (0.02 : ℚ) < 1) ∧
    ((0 : ℚ) < 0.08 ∧ (0.08 : ℚ) < 1) ∧
    (∀ s ts : ℚ, s ≠ ts →
      |updateScroll s ts - ts| < |s - ts| ∧
        (0 < ts - updateScroll s ts ↔ 0 < ts - s)) ∧
    (∀ m tm : ℚ × ℚ, m.1 ≠ tm.1 →
      |(updateMouse m tm).1 - tm.1| < |m.1 - tm.1| ∧
        (0 < tm.1 - (updateMouse m tm).1 ↔ 0 < tm.1 - m.1)) ∧
    (∀ m tm : ℚ × ℚ, m.2 ≠ tm.2 →
      |(updateMouse m tm).2 - tm.2| < |m.2 - tm.2| ∧
        (0 < tm.2 - (updateMouse m tm).2 ↔ 0 < tm.2 - m.2)) ∧
    (∀ v tv : ℚ, v ≠ tv →
      |visibilityStep v tv - tv| < |v - tv| ∧
        (0 < tv - visibilityStep v tv ↔ 0 < tv - v)) ∧
    (∀ s : ℚ, updateScroll s s = s) ∧
    (∀ v : ℚ, visibilityStep v v = v) := by
  refine ⟨fun m tm => rfl, fun s ts => rfl, fun v tv => rfl,
    ⟨by norm_num, by norm_num⟩, ⟨by norm_num, by norm_num⟩,
    ⟨by norm_num, by norm_num⟩, ?_, ?_, ?_, ?_, ?_, ?_⟩
  · intro s ts h
    exact lerp_toward s ts 0.02 (by norm_num) (by norm_num) h
  · intro m tm h
    exact lerp_toward m.1 tm.1 0.05 (by norm_num) (by norm_num) h
  · intro m tm h
    exact lerp_toward m.2 tm.2 0.05 (by norm_num) (by norm_num) h
  · intro v tv h
    exact lerp_toward v tv 0.08 (by norm_num) (by norm_num) h
  · intro s
    exact lerp_fixed s 0.02
  · intro v
    exact lerp_fixed v 0.08

/-- Witness for C1: the scroll update from 0 toward target 1 strictly
shrinks the gap. -/
theorem smoothing_updates_monotone_toward_target_witness :
    |updateScroll (0 : ℚ) 1 - 1| < |(0 : ℚ) - 1| :=
  (smoothing_updates_monotone_toward_target.2.2.2.2.2.2.1 0 1
    (by norm_num)).1

/-- Counterexample for C1 as stated: when the smoothed value already
equals the target (scroll position 5, target 5), the update does not
strictly decrease the distance to the target, so the unconditional
"distance strictly decreases on every update" fails. -/
theorem smoothing_update_at_target_not_strict :
    ¬ |updateScroll (5 : ℚ) 5 - 5| < |(5 : ℚ) - 5| := by
  norm_num [updateScroll]

/-- Claim C6, amended.  For every nonnegative smoothed scroll offset and
positive viewport height, `getCurrentSection` returns the scroll offset
divided by the viewport height, floored and clamped to `0..2`, hence a
value in `{0, 1, 2}`; for negative offsets the code has no lower clamp. -/
theorem getCurrentSection_floor_clamp (s H : ℚ) (hH : 0 < H) (hs : 0 ≤ s) :
    getCurrentSection s H = max 0 (min ⌊s / H⌋ 2) ∧
      (getCurrentSection s H = 0 ∨ getCurrentSection s H = 1 ∨
        getCurrentSection s H = 2) := by
  have hf : 0 ≤ ⌊s / H⌋ := Int.floor_nonneg.mpr (div_nonneg hs hH.le)
  unfold getCurrentSection
  omega

/-- Witness for C6 at scroll offset 250 and viewport height 100: the
section index is well-defined and lands in `{0, 1, 2}`. -/
theorem getCurrentSection_floor_clamp_witness :
    getCurrentSection (250 : ℚ) 100 = max 0 (min ⌊(250 : ℚ) / 100⌋ 2) ∧
      (getCurrentSection (250 : ℚ) 100 = 0 ∨
        getCurrentSection (250 : ℚ) 100 = 1 ∨
        getCurrentSection (250 : ℚ) 100 = 2) :=
  getCurrentSection_floor_clamp 250 100 (by norm_num) (by norm_num)

/-- Counterexample for C6 as stated: at scroll offset -100 with viewport
height 100 the code returns -1, which is neither clamped to the valid
range nor in `{0, 1, 2}`. -/
theorem getCurrentSection_negative_scroll_escapes_range :
    getCurrentSection (-100 : ℚ) 100 = -1 ∧
      ¬ (getCurrentSection (-100 : ℚ) 100 = 0 ∨
        getCurrentSection (-100 : ℚ) 100 = 1 ∨
        getCurrentSection (-100 : ℚ) 100 = 2) := by
  have h : getCurrentSection (-100 : ℚ) 100 = -1 := by
    norm_num [getCurrentSection]
  exact ⟨h, by rw [h]; decide⟩

/-- Opacity formula of `getInterpolatedParams`: the blend factor is
halved for opacity. -/
lemma getInterpolatedParams_opacity_formula (cfg : LineConfig ℝ)
    (cur : ℤ) (f : ℝ) :
    (getInterpolatedParams cfg cur f).opacity =
      cfg.opacity + ((nextConfigFor cfg cur).opacity - cfg.opacity) * f * 0.5 := by
  by_cases hf : f = (0.0 : ℝ)
  · rw [getInterpolatedParams, if_pos hf]
    norm_num at hf
    subst hf
    ring
  · rw [getInterpolatedParams, if_neg hf]

/-- Claim C10.  `getInterpolatedParams` moves opacity only half as far
toward the next configuration as the other parameters: the returned
opacity is `opacity + (next.opacity - opacity) * f * 0.5`, while speed,
amplitude, frequency, direction and curveType move by the full factor,
so at `f = 1` they reach the next configuration exactly while opacity
only reaches the midpoint. -/
theorem interpolatedParams_half_opacity (cfg : LineConfig ℝ)
    (cur : ℤ) (f : ℝ) :
    (getInterpolatedParams cfg cur f).opacity =
        cfg.opacity + ((nextConfigFor cfg cur).opacity - cfg.opacity) * f * 0.5 ∧
    (getInterpolatedParams cfg cur f).speed =
        cfg.speed + ((nextConfigFor cfg cur).speed - cfg.speed) * f ∧
    (getInterpolatedParams cfg cur f).amplitude =
        cfg.amplitude + ((nextConfigFor cfg cur).amplitude - cfg.amplitude) * f ∧
    (getInterpolatedParams cfg cur f).frequency =
        cfg.frequency + ((nextConfigFor cfg cur).frequency - cfg.frequency) * f ∧
    (getInterpolatedParams cfg cur f).direction =
        cfg.direction + ((nextConfigFor cfg cur).direction - cfg.direction) * f ∧
    (getInterpolatedParams cfg cur f).curveType =
        cfg.curveType + ((nextConfigFor cfg cur).curveType - cfg.curveType) * f ∧
    (f = 1 →
      (getInterpolatedParams cfg cur f).speed = (nextConfigFor cfg cur).speed ∧
      (getInterpolatedParams cfg cur f).amplitude =
        (nextConfigFor cfg cur).amplitude ∧
      (getInterpolatedParams cfg cur f).frequency =
        (nextConfigFor cfg cur).frequency ∧
      (getInterpolatedParams cfg cur f).direction =
        (nextConfigFor cfg cur).direction ∧
      (getInterpolatedParams cfg cur f).curveType =
        (nextConfigFor cfg cur).curveType ∧
      (getInterpolatedParams cfg cur f).opacity =
        (cfg.opacity + (nextConfigFor cfg cur).opacity) / 2) := by
  by_cases hf : f = (0.0 : ℝ)
  · rw [getInterpolatedParams, if_pos hf]
    norm_num at hf
    subst hf
    refine ⟨by ring, by ring, by ring, by ring, by ring, by ring, ?_⟩
    intro h
    norm_num at h
  · rw [getInterpolatedParams, if_neg hf]
    refine ⟨rfl, rfl, rfl, rfl, rfl, rfl, ?_⟩
    intro h
    subst h
    refine ⟨by ring, by ring, by ring, by ring, by ring, by ring⟩

/-- Witness for C10 at full blend `f = 1` on the default configuration:
speed reaches the next configuration exactly and opacity reaches the
midpoint. -/
theorem interpolatedParams_half_opacity_witness :
    (getInterpolatedParams default 0 1).speed = (nextConfigFor default 0).speed ∧
      (getInterpolatedParams default 0 1).opacity =
        ((default : LineConfig ℝ).opacity + (nextConfigFor default 0).opacity) / 2 := by
  have h := (interpolatedParams_half_opacity default 0 1).2.2.2.2.2.2 rfl
  exact ⟨h.1, h.2.2.2.2.2⟩

/-- The hash output is a fractional part, hence in `[0,1)`. -/
lemma hash_mem_Ico (n : ℝ) : 0 ≤ hash n ∧ hash n < 1 :=
  ⟨Int.fract_nonneg _, Int.fract_lt_one _⟩

/-- The smoothstep-eased fractional weight `f * f * (3 - 2 * f)` stays
in `[0,1]` for `f ∈ [0,1]`. -/
lemma ease_weight_mem {f : ℝ} (h0 : 0 ≤ f) (h1 : f ≤ 1) :
    0 ≤ f * f * (3.0 - 2.0 * f) ∧ f * f * (3.0 - 2.0 * f) ≤ 1 := by
  constructor
  · nlinarith
  · nlinarith [sq_nonneg (1 - f), sq_nonneg f]

/-- Mixing two values of `[0,1)` with a weight in `[0,1]` stays in
`[0,1)`. -/
lemma glslMix_mem_Ico {a b t : ℝ} (ha0 : 0 ≤ a) (ha1 : a < 1)
    (hb0 : 0 ≤ b) (hb1 : b < 1) (ht0 : 0 ≤ t) (ht1 : t ≤ 1) :
    0 ≤ glslMix a b t ∧ glslMix a b t < 1 := by
  unfold glslMix
  constructor
  · have h1 : 0 ≤ a * (1 - t) := mul_nonneg ha0 (by linarith)
    have h2 : 0 ≤ b * t := mul_nonneg hb0 ht0
    linarith
  · rcases lt_or_eq_of_le ht1 with h | h
    · nlinarith
    · subst h
      nlinarith

/-- The bilinear value noise stays in `[0,1)`. -/
lemma noise_mem_Ico (p : ℝ × ℝ) : 0 ≤ noise p ∧ noise p < 1 := by
  have hf1 := ease_weight_mem (Int.fract_nonneg p.1) (Int.fract_lt_one p.1).le
  have hf2 := ease_weight_mem (Int.fract_nonneg p.2) (Int.fract_lt_one p.2).le
  have hA := glslMix_mem_Ico
    (hash_mem_Ico ((⌊p.1⌋ : ℝ) + (⌊p.2⌋ : ℝ) * 57.0 + 0.0)).1
    (hash_mem_Ico ((⌊p.1⌋ : ℝ) + (⌊p.2⌋ : ℝ) * 57.0 + 0.0)).2
    (hash_mem_Ico ((⌊p.1⌋ : ℝ) + (⌊p.2⌋ : ℝ) * 57.0 + 1.0)).1
    (hash_mem_Ico ((⌊p.1⌋ : ℝ) + (⌊p.2⌋ : ℝ) * 57.0 + 1.0)).2 hf1.1 hf1.2
  have hB := glslMix_mem_Ico
    (hash_mem_Ico ((⌊p.1⌋ : ℝ) + (⌊p.2⌋ : ℝ) * 57.0 + 57.0)).1
    (hash_mem_Ico ((⌊p.1⌋ : ℝ) + (⌊p.2⌋ : ℝ) * 57.0 + 57.0)).2
    (hash_mem_Ico ((⌊p.1⌋ : ℝ) + (⌊p.2⌋ : ℝ) * 57.0 + 58.0)).1
    (hash_mem_Ico ((⌊p.1⌋ : ℝ) + (⌊p.2⌋ : ℝ) * 57.0 + 58.0)).2 hf1.1 hf1.2
  exact glslMix_mem_Ico hA.1 hA.2 hB.1 hB.2 hf2.1 hf2.2

/-- Claim C7.  The vertex-shader hash returns a value in `[0,1)`, the
bilinear value noise therefore stays in `[0,1)`, and the 4-octave fbm
(amplitudes 0.5, 0.25, 0.125, 0.0625) stays in `[0, 0.9375)`. -/
theorem hash_noise_fbm_ranges :
    (∀ n : ℝ, 0 ≤ hash n ∧ hash n < 1) ∧
    (∀ p : ℝ × ℝ, 0 ≤ noise p ∧ noise p < 1) ∧
    (∀ p : ℝ × ℝ, 0 ≤ fbm p ∧ fbm p < 15 / 16) := by
  refine ⟨hash_mem_Ico, noise_mem_Ico, fun p => ?_⟩
  have e : fbm p = 0.0 + 0.5 * noise p +
      0.5 * 0.5 * noise (p.1 * 2.0, p.2 * 2.0) +
      0.5 * 0.5 * 0.5 * noise (p.1 * 2.0 * 2.0, p.2 * 2.0 * 2.0) +
      0.5 * 0.5 * 0.5 * 0.5 *
        noise (p.1 * 2.0 * 2.0 * 2.0, p.2 * 2.0 * 2.0 * 2.0) := by
    simp only [fbm, fbmGo]
  have h1 := noise_mem_Ico p
  have h2 := noise_mem_Ico (p.1 * 2.0, p.2 * 2.0)
  have h3 := noise_mem_Ico (p.1 * 2.0 * 2.0, p.2 * 2.0 * 2.0)
  have h4 := noise_mem_Ico (p.1 * 2.0 * 2.0 * 2.0, p.2 * 2.0 * 2.0 * 2.0)
  rw [e]
  constructor
  · nlinarith [h1.1, h2.1, h3.1, h4.1]
  · nlinarith [h1.2, h2.2, h3.2, h4.2]

/-- Case characterization of `getSectionVisibility` in terms of the
section distance. -/
lemma getSectionVisibility_eq (s H : ℝ) (sec : ℤ) :
    getSectionVisibility s H sec =
      if |getCurrentSection s H - sec| = 0 then 1
      else if |getCurrentSection s H - sec| = 1 then 0.25 else 0 := by
  unfold getSectionVisibility
  norm_num

/-- Closed form of iterating the visibility smoothing step against a
fixed target: the gap decays geometrically with ratio 0.92. -/
lemma visibilityStep_iterate (t v₀ : ℝ) (n : ℕ) :
    (fun v => visibilityStep v t)^[n] v₀ = t + (v₀ - t) * 0.92 ^ n := by
  induction n with
  | zero => simp
  | succ k ih =>
      rw [Function.iterate_succ_apply', ih]
      unfold visibilityStep
      rw [pow_succ]
      ring

/-- Iterating the visibility smoothing step converges to the target. -/
lemma visibilityStep_tendsto (t v₀ : ℝ) :
    Filter.Tendsto (fun n => (fun v => visibilityStep v t)^[n] v₀)
      Filter.atTop (nhds t) := by
  have hpow : Filter.Tendsto (fun n : ℕ => (0.92 : ℝ) ^ n)
      Filter.atTop (nhds 0) :=
    tendsto_pow_atTop_nhds_zero_of_lt_one (by norm_num) (by norm_num)
  have h : Filter.Tendsto (fun n : ℕ => t + (v₀ - t) * 0.92 ^ n)
      Filter.atTop (nhds (t + (v₀ - t) * 0)) :=
    (hpow.const_mul (v₀ - t)).const_add t
  rw [mul_zero, add_zero] at h
  exact h.congr fun n => (visibilityStep_iterate t v₀ n).symm

/-- Claim C5.  `getSectionVisibility` targets exactly 1.0 for a band in
the current section, 0.25 at section distance 1 and 0.0 at distance two
or more; and for a fixed current section the smoothed visibility uniform
converges to that target. -/
theorem sectionVisibility_targets_and_convergence :
    (∀ (s H : ℝ) (sec : ℤ), getCurrentSection s H = sec →
      getSectionVisibility s H sec = 1) ∧
    (∀ (s H : ℝ) (sec : ℤ), |getCurrentSection s H - sec| = 1 →
      getSectionVisibility s H sec = 0.25) ∧
    (∀ (s H : ℝ) (sec : ℤ), 2 ≤ |getCurrentSection s H - sec| →
      getSectionVisibility s H sec = 0) ∧
    (∀ (s H : ℝ) (sec : ℤ) (v₀ : ℝ),
      Filter.Tendsto
        (fun n => (fun v => visibilityStep v (getSectionVisibility s H sec))^[n] v₀)
        Filter.atTop (nhds (getSectionVisibility s H sec))) := by
  refine ⟨?_, ?_, ?_, fun s H sec v₀ => visibilityStep_tendsto _ v₀⟩
  · intro s H sec h
    rw [getSectionVisibility_eq, h]
    simp
  · intro s H sec h
    rw [getSectionVisibility_eq, h]
    norm_num
  · intro s H sec h
    have h0 : ¬ |getCurrentSection s H - sec| = 0 := by omega
    have h1 : ¬ |getCurrentSection s H - sec| = 1 := by omega
    rw [getSectionVisibility_eq, if_neg h0, if_neg h1]

/-- Witness for C5: with scroll 0 and viewport height 1 the current
section is 0, a section-0 band's target is 1.0, and the smoothed
visibility converges to 1.0. -/
theorem sectionVisibility_targets_and_convergence_witness :
    getSectionVisibility (0 : ℝ) 1 0 = 1 :=
  sectionVisibility_targets_and_convergence.1 0 1 0
    (by norm_num [getCurrentSection])

/-- Opacities of the section 1 configurations lie in `[0,1]`
(they are `0.35 + (i % 3) * 0.05`). -/
lemma section1Lines_opacity_mem :
    ∀ c ∈ section1Lines, 0 ≤ c.opacity ∧ c.opacity ≤ 1 := by
  rw [section1Lines, List.forall_mem_ofFn_iff]
  intro i
  have hm : (((i : ℕ) % 3 : ℕ) : ℝ) ≤ 2 := by
    exact_mod_cast Nat.lt_succ_iff.mp (Nat.mod_lt _ (by norm_num))
  have hm0 : (0 : ℝ) ≤ (((i : ℕ) % 3 : ℕ) : ℝ) := Nat.cast_nonneg _
  dsimp only
  constructor <;> [nlinarith; nlinarith]

/-- Opacities of the section 2 configurations lie in `[0,1]`. -/
lemma section2Lines_opacity_mem :
    ∀ c ∈ section2Lines, 0 ≤ c.opacity ∧ c.opacity ≤ 1 := by
  rw [section2Lines, List.forall_mem_ofFn_iff]
  intro i
  have hm : (((i : ℕ) % 3 : ℕ) : ℝ) ≤ 2 := by
    exact_mod_cast Nat.lt_succ_iff.mp (Nat.mod_lt _ (by norm_num))
  have hm0 : (0 : ℝ) ≤ (((i : ℕ) % 3 : ℕ) : ℝ) := Nat.cast_nonneg _
  dsimp only
  constructor <;> [nlinarith; nlinarith]

/-- Opacities of the section 3 configurations lie in `[0,1]`. -/
lemma section3Lines_opacity_mem :
    ∀ c ∈ section3Lines, 0 ≤ c.opacity ∧ c.opacity ≤ 1 := by
  rw [section3Lines, List.forall_mem_ofFn_iff]
  intro i
  have hm : (((i : ℕ) % 3 : ℕ) : ℝ) ≤ 2 := by
    exact_mod_cast Nat.lt_succ_iff.mp (Nat.mod_lt _ (by norm_num))
  have hm0 : (0 : ℝ) ≤ (((i : ℕ) % 3 : ℕ) : ℝ) := Nat.cast_nonneg _
  dsimp only
  constructor <;> [nlinarith; nlinarith]

/-- Fetching from a list whose opacities all lie in `[0,1]`, with a
default whose opacity also does, yields an opacity in `[0,1]`. -/
lemma getD_opacity_mem (l : List (LineConfig ℝ))
    (hl : ∀ c ∈ l, 0 ≤ c.opacity ∧ c.opacity ≤ 1) (i : ℕ)
    (d : LineConfig ℝ) (hd : 0 ≤ d.opacity ∧ d.opacity ≤ 1) :
    0 ≤ (l.getD i d).opacity ∧ (l.getD i d).opacity ≤ 1 := by
  by_cases h : i < l.length
  · rw [List.getD_eq_getElem l d h]
    exact hl _ (List.getElem_mem h)
  · rw [List.getD_eq_default l d (le_of_not_lt h)]
    exact hd

/-- The next-section lookup always returns a config whose opacity is in
`[0,1]`. -/
lemma nextConfigFor_opacity_mem (cfg : LineConfig ℝ) (cur : ℤ) :
    0 ≤ (nextConfigFor cfg cur).opacity ∧
      (nextConfigFor cfg cur).opacity ≤ 1 := by
  have hd : 0 ≤ (default : LineConfig ℝ).opacity ∧
      (default : LineConfig ℝ).opacity ≤ 1 := by
    constructor <;> norm_num [default]
  have hl : ∀ c ∈ (if cur + 1 = 1 then section2Lines else section3Lines),
      0 ≤ c.opacity ∧ c.opacity ≤ 1 := by
    rcases eq_or_ne (cur + 1) 1 with h | h
    · rw [if_pos h]; exact section2Lines_opacity_mem
    · rw [if_neg h]; exact section3Lines_opacity_mem
  exact getD_opacity_mem _ hl _ _ hd

/-- Claim C9.  Each frame keeps visibility and opacity in `[0,1]`: the
smoothing step with a target in `{0, 0.25, 1}` maps `[0,1]` into
`[0,1]`, the visibility targets are always in that set, every static
opacity configuration is in `[0,1]`, and the opacity produced by
`getInterpolatedParams` stays in `[0,1]` whenever the band's own opacity
is and the factor is in `[0,1]`. -/
theorem visibility_opacity_range_invariant :
    (∀ v t : ℝ, 0 ≤ v → v ≤ 1 → (t = 0 ∨ t = 0.25 ∨ t = 1) →
      0 ≤ visibilityStep v t ∧ visibilityStep v t ≤ 1) ∧
    (∀ (s H : ℝ) (sec : ℤ), getSectionVisibility s H sec = 0 ∨
      getSectionVisibility s H sec = 0.25 ∨ getSectionVisibility s H sec = 1) ∧
    (∀ c ∈ allLineConfigs, 0 ≤ c.opacity ∧ c.opacity ≤ 1) ∧
    (∀ (cfg : LineConfig ℝ) (cur : ℤ) (f : ℝ), 0 ≤ f → f ≤ 1 →
      0 ≤ cfg.opacity → cfg.opacity ≤ 1 →
      0 ≤ (getInterpolatedParams cfg cur f).opacity ∧
        (getInterpolatedParams cfg cur f).opacity ≤ 1) := by
  refine ⟨?_, ?_, ?_, ?_⟩
  · intro v t h0 h1 ht
    unfold visibilityStep
    rcases ht with rfl | rfl | rfl <;> constructor <;> nlinarith
  · intro s H sec
    rw [getSectionVisibility_eq]
    by_cases h0 : |getCurrentSection s H - sec| = 0
    · rw [if_pos h0]; right; right; rfl
    · rw [if_neg h0]
      by_cases h1 : |getCurrentSection s H - sec| = 1
      · rw [if_pos h1]; right; left; rfl
      · rw [if_neg h1]; left; rfl
  · intro c hc
    rw [allLineConfigs, List.append_assoc] at hc
    rcases List.mem_append.mp hc with h | h
    · exact section1Lines_opacity_mem c h
    · rcases List.mem_append.mp h with h' | h'
      · exact section2Lines_opacity_mem c h'
      · exact section3Lines_opacity_mem c h'
  · intro cfg cur f hf0 hf1 ho0 ho1
    have hn := nextConfigFor_opacity_mem cfg cur
    rw [getInterpolatedParams_opacity_formula]
    constructor <;> nlinarith [hn.1, hn.2]

/-- Witness for C9: a half-visible band smoothed toward target 0.25
stays in `[0,1]`, and an in-range opacity interpolated at factor 1/2
stays in `[0,1]`. -/
theorem visibility_opacity_range_invariant_witness :
    0 ≤ visibilityStep (1 / 2 : ℝ) 0.25 ∧ visibilityStep (1 / 2 : ℝ) 0.25 ≤ 1 :=
  visibility_opacity_range_invariant.1 (1 / 2) 0.25 (by norm_num) (by norm_num)
    (Or.inr (Or.inl rfl))

/-- A GLSL smoothstep always lands in `[0,1]`. -/
lemma glslSmoothstep_mem (e0 e1 x : K) :
    0 ≤ glslSmoothstep e0 e1 x ∧ glslSmoothstep e0 e1 x ≤ 1 := by
  have he : glslSmoothstep e0 e1 x =
      glslClamp ((x - e0) / (e1 - e0)) 0 1 *
        glslClamp ((x - e0) / (e1 - e0)) 0 1 *
        (3 - 2 * glslClamp ((x - e0) / (e1 - e0)) 0 1) := rfl
  have ht0 : (0 : K) ≤ glslClamp ((x - e0) / (e1 - e0)) 0 1 :=
    le_min (le_max_right _ _) zero_le_one
  have ht1 : glslClamp ((x - e0) / (e1 - e0)) 0 1 ≤ 1 := min_le_right _ _
  rw [he]
  constructor
  · nlinarith
  · nlinarith [sq_nonneg (1 - glslClamp ((x - e0) / (e1 - e0)) 0 1)]

/-- Mixing two values of an interval with a weight in `[0,1]` stays in
the interval. -/
lemma glslMix_mem_Icc (lo hi a b t : K) (ha0 : lo ≤ a) (ha1 : a ≤ hi)
    (hb0 : lo ≤ b) (hb1 : b ≤ hi) (ht0 : 0 ≤ t) (ht1 : t ≤ 1) :
    lo ≤ glslMix a b t ∧ glslMix a b t ≤ hi := by
  unfold glslMix
  constructor <;> nlinarith

/-- The x component of the gradient, spelled out. -/
lemma smoothGradient_x (t : K) :
    (smoothGradient t).x =
      glslMix
        (glslMix (glslMix (glslMix 0.4 0.55 (glslSmoothstep 0.0 0.3 t)) 0.88
          (glslSmoothstep 0.25 0.55 t)) 1.0 (glslSmoothstep 0.5 0.8 t))
        (glslMix 0.55 0.88 0.5) (glslSmoothstep 0.7 1.0 t * 0.25) := rfl

/-- The y component of the gradient, spelled out. -/
lemma smoothGradient_y (t : K) :
    (smoothGradient t).y =
      glslMix
        (glslMix (glslMix (glslMix 0.55 0.40 (glslSmoothstep 0.0 0.3 t)) 0.35
          (glslSmoothstep 0.25 0.55 t)) 0.50 (glslSmoothstep 0.5 0.8 t))
        (glslMix 0.40 0.35 0.5) (glslSmoothstep 0.7 1.0 t * 0.25) := rfl

/-- The z component of the gradient, spelled out. -/
lemma smoothGradient_z (t : K) :
    (smoothGradient t).z =
      glslMix
        (glslMix (glslMix (glslMix 0.92 0.95 (glslSmoothstep 0.0 0.3 t)) 0.62
          (glslSmoothstep 0.25 0.55 t)) 0.32 (glslSmoothstep 0.5 0.8 t))
        (glslMix 0.95 0.62 0.5) (glslSmoothstep 0.7 1.0 t * 0.25) := rfl

/-- Claim C2, amended.  The palette function returns exactly the first
palette color (0.4, 0.55, 0.92) at position 0; at position 1 it returns
`0.75 * (last color) + 0.25 * (average of the two middle colors)` =
(0.92875, 0.46875, 0.43625), not the last palette color; and for every
position in `(0,1)` each component stays inside the componentwise convex
hull of the four palette colors. -/
theorem smoothGradient_endpoints_and_hull :
    smoothGradient (0 : ℚ) = ⟨0.4, 0.55, 0.92⟩ ∧
    smoothGradient (1 : ℚ) = ⟨743 / 800, 15 / 32, 349 / 800⟩ ∧
    (∀ t : ℚ, 0 < t → t < 1 →
      (2 / 5 ≤ (smoothGradient t).x ∧ (smoothGradient t).x ≤ 1) ∧
      (7 / 20 ≤ (smoothGradient t).y ∧ (smoothGradient t).y ≤ 11 / 20) ∧
      (8 / 25 ≤ (smoothGradient t).z ∧ (smoothGradient t).z ≤ 19 / 20)) := by
  refine ⟨?_, ?_, ?_⟩
  · norm_num [smoothGradient, mix3, glslMix, glslSmoothstep, glslClamp,
      Vec3.mk.injEq]
  · norm_num [smoothGradient, mix3, glslMix, glslSmoothstep, glslClamp,
      Vec3.mk.injEq]
  · intro t _ _
    have h1 := glslSmoothstep_mem (0.0 : ℚ) 0.3 t
    have h2 := glslSmoothstep_mem (0.25 : ℚ) 0.55 t
    have h3 := glslSmoothstep_mem (0.5 : ℚ) 0.8 t
    have h4 := glslSmoothstep_mem (0.7 : ℚ) 1.0 t
    have h4' : 0 ≤ glslSmoothstep (0.7 : ℚ) 1.0 t * 0.25 ∧
        glslSmoothstep (0.7 : ℚ) 1.0 t * 0.25 ≤ 1 := by
      constructor <;> nlinarith [h4.1, h4.2]
    refine ⟨?_, ?_, ?_⟩
    · rw [smoothGradient_x]
      have hA : (2 / 5 : ℚ) ≤ glslMix 0.4 0.55 (glslSmoothstep 0.0 0.3 t) ∧
          glslMix 0.4 0.55 (glslSmoothstep 0.0 0.3 t) ≤ 1 :=
        glslMix_mem_Icc _ _ _ _ _ (by norm_num) (by norm_num) (by norm_num)
          (by norm_num) h1.1 h1.2
      have hB : (2 / 5 : ℚ) ≤
          glslMix (glslMix 0.4 0.55 (glslSmoothstep 0.0 0.3 t)) 0.88
            (glslSmoothstep 0.25 0.55 t) ∧
          glslMix (glslMix 0.4 0.55 (glslSmoothstep 0.0 0.3 t)) 0.88
            (glslSmoothstep 0.25 0.55 t) ≤ 1 :=
        glslMix_mem_Icc _ _ _ _ _ hA.1 hA.2 (by norm_num) (by norm_num)
          h2.1 h2.2
      have hC : (2 / 5 : ℚ) ≤
          glslMix (glslMix (glslMix 0.4 0.55 (glslSmoothstep 0.0 0.3 t)) 0.88
            (glslSmoothstep 0.25 0.55 t)) 1.0 (glslSmoothstep 0.5 0.8 t) ∧
          glslMix (glslMix (glslMix 0.4 0.55 (glslSmoothstep 0.0 0.3 t)) 0.88
            (glslSmoothstep 0.25 0.55 t)) 1.0 (glslSmoothstep 0.5 0.8 t) ≤ 1 :=
        glslMix_mem_Icc _ _ _ _ _ hB.1 hB.2 (by norm_num) (by norm_num)
          h3.1 h3.2
      have hM : (2 / 5 : ℚ) ≤ glslMix 0.55 0.88 0.5 ∧
          glslMix (0.55 : ℚ) 0.88 0.5 ≤ 1 := by
        constructor <;> norm_num [glslMix]
      exact glslMix_mem_Icc _ _ _ _ _ hC.1 hC.2 hM.1 hM.2 h4'.1 h4'.2
    · rw [smoothGradient_y]
      have hA : (7 / 20 : ℚ) ≤ glslMix 0.55 0.40 (glslSmoothstep 0.0 0.3 t) ∧
          glslMix 0.55 0.40 (glslSmoothstep 0.0 0.3 t) ≤ 11 / 20 :=
        glslMix_mem_Icc _ _ _ _ _ (by norm_num) (by norm_num) (by norm_num)
          (by norm_num) h1.1 h1.2
      have hB : (7 / 20 : ℚ) ≤
          glslMix (glslMix 0.55 0.40 (glslSmoothstep 0.0 0.3 t)) 0.35
            (glslSmoothstep 0.25 0.55 t) ∧
          glslMix (glslMix 0.55 0.40 (glslSmoothstep 0.0 0.3 t)) 0.35
            (glslSmoothstep 0.25 0.55 t) ≤ 11 / 20 :=
        glslMix_mem_Icc _ _ _ _ _ hA.1 hA.2 (by norm_num) (by norm_num)
          h2.1 h2.2
      have hC : (7 / 20 : ℚ) ≤
          glslMix (glslMix (glslMix 0.55 0.40 (glslSmoothstep 0.0 0.3 t)) 0.35
            (glslSmoothstep 0.25 0.55 t)) 0.50 (glslSmoothstep 0.5 0.8 t) ∧
          glslMix (glslMix (glslMix 0.55 0.40 (glslSmoothstep 0.0 0.3 t)) 0.35
            (glslSmoothstep 0.25 0.55 t)) 0.50 (glslSmoothstep 0.5 0.8 t) ≤
            11 / 20 :=
        glslMix_mem_Icc _ _ _ _ _ hB.1 hB.2 (by norm_num) (by norm_num)
          h3.1 h3.2
      have hM : (7 / 20 : ℚ) ≤ glslMix 0.40 0.35 0.5 ∧
          glslMix (0.40 : ℚ) 0.35 0.5 ≤ 11 / 20 := by
        constructor <;> norm_num [glslMix]
      exact glslMix_mem_Icc _ _ _ _ _ hC.1 hC.2 hM.1 hM.2 h4'.1 h4'.2
    · rw [smoothGradient_z]
      have hA : (8 / 25 : ℚ) ≤ glslMix 0.92 0.95 (glslSmoothstep 0.0 0.3 t) ∧
          glslMix 0.92 0.95 (glslSmoothstep 0.0 0.3 t) ≤ 19 / 20 :=
        glslMix_mem_Icc _ _ _ _ _ (by norm_num) (by norm_num) (by norm_num)
          (by norm_num) h1.1 h1.2
      have hB : (8 / 25 : ℚ) ≤
          glslMix (glslMix 0.92 0.95 (glslSmoothstep 0.0 0.3 t)) 0.62
            (glslSmoothstep 0.25 0.55 t) ∧
          glslMix (glslMix 0.92 0.95 (glslSmoothstep 0.0 0.3 t)) 0.62
            (glslSmoothstep 0.25 0.55 t) ≤ 19 / 20 :=
        glslMix_mem_Icc _ _ _ _ _ hA.1 hA.2 (by norm_num) (by norm_num)
          h2.1 h2.2
      have hC : (8 / 25 : ℚ) ≤
          glslMix (glslMix (glslMix 0.92 0.95 (glslSmoothstep 0.0 0.3 t)) 0.62
            (glslSmoothstep 0.25 0.55 t)) 0.32 (glslSmoothstep 0.5 0.8 t) ∧
          glslMix (glslMix (glslMix 0.92 0.95 (glslSmoothstep 0.0 0.3 t)) 0.62
            (glslSmoothstep 0.25 0.55 t)) 0.32 (glslSmoothstep 0.5 0.8 t) ≤
            19 / 20 :=
        glslMix_mem_Icc _ _ _ _ _ hB.1 hB.2 (by norm_num) (by norm_num)
          h3.1 h3.2
      have hM : (8 / 25 : ℚ) ≤ glslMix 0.95 0.62 0.5 ∧
          glslMix (0.95 : ℚ) 0.62 0.5 ≤ 19 / 20 := by
        constructor <;> norm_num [glslMix]
      exact glslMix_mem_Icc _ _ _ _ _ hC.1 hC.2 hM.1 hM.2 h4'.1 h4'.2

/-- Witness for C2 at position 1/2: the components stay in the hull. -/
theorem smoothGradient_endpoints_and_hull_witness :
    2 / 5 ≤ (smoothGradient (1 / 2 : ℚ)).x ∧
      (smoothGradient (1 / 2 : ℚ)).x ≤ 1 :=
  (smoothGradient_endpoints_and_hull.2.2 (1 / 2) (by norm_num)
    (by norm_num)).1

/-- Counterexample for C2 as stated: at position 1 the gradient does not
return the last palette color (1.0, 0.50, 0.32) (the final mix pulls it
toward the average of the middle colors), and at position 0.29 the x
component already exceeds 0.55, escaping the convex hull of the two
adjacent palette colors (0.4, 0.55, 0.92) and (0.55, 0.40, 0.95). -/
theorem smoothGradient_one_not_last_color :
    smoothGradient (1 : ℚ) ≠ ⟨1.0, 0.50, 0.32⟩ ∧
      11 / 20 < (smoothGradient (29 / 100 : ℚ)).x := by
  constructor
  · intro h
    have he : smoothGradient (1 : ℚ) = ⟨743 / 800, 15 / 32, 349 / 800⟩ := by
      norm_num [smoothGradient, mix3, glslMix, glslSmoothstep, glslClamp,
        Vec3.mk.injEq]
    rw [he] at h
    have := congrArg Vec3.x h
    norm_num at this
  · norm_num [smoothGradient, mix3, glslMix, glslSmoothstep, glslClamp]

/-- The concatenated configuration list has 40 entries. -/
lemma allLineConfigs_length : allLineConfigs.length = 40 := by
  simp [allLineConfigs, section1Lines, section2Lines, section3Lines]

/-- The band list has 40 entries as well. -/
lemma bandConfigs_length : bandConfigs.length = 40 := by
  simp [bandConfigs, allLineConfigs, section1Lines, section2Lines,
    section3Lines]

/-- The band stored at global position `i` is the `i`-th concatenated
configuration with its `lineIndex` field set to `i`. -/
lemma bandConfigs_getD (i : ℕ) (h : i < 40) :
    bandConfigs.getD i default =
      { allLineConfigs.getD i default with lineIndex := i } := by
  have hA : i < allLineConfigs.length := by rw [allLineConfigs_length]; exact h
  have hB : i < bandConfigs.length := by rw [bandConfigs_length]; exact h
  rw [List.getD_eq_getElem _ _ hB, List.getD_eq_getElem _ _ hA]
  simp only [bandConfigs, List.getElem_map, List.getElem_enum]

/-- The branch inside `getInterpolatedParams` reduces to: section 2's
list when the current section is 0, section 3's list otherwise, indexed
by the band's global `lineIndex` modulo 13 (both candidate lists have 13
entries). -/
lemma nextConfigFor_eq (cfg : LineConfig ℝ) (cur : ℤ) :
    nextConfigFor cfg cur =
      (if cur = 0 then section2Lines else section3Lines).getD
        (cfg.lineIndex % 13) default := by
  have h2 : section2Lines.length = 13 := by simp [section2Lines]
  have h3 : section3Lines.length = 13 := by simp [section3Lines]
  unfold nextConfigFor
  rcases eq_or_ne cur 0 with h | h
  · subst h
    norm_num [h2]
  · have h1 : cur + 1 ≠ 1 := by omega
    show (if cur + 1 = 1 then section2Lines else section3Lines).getD
        (cfg.lineIndex %
          (if cur + 1 = 1 then section2Lines else section3Lines).length)
        default =
      (if cur = 0 then section2Lines else section3Lines).getD
        (cfg.lineIndex % 13) default
    rw [if_neg h1, if_neg h, h3]

/-- Claim C4, amended.  The interpolation target is the next section's
configuration list (section 2's list when the current section is 0,
section 3's list otherwise) indexed by the band's GLOBAL line index in
the concatenated 40-entry list, modulo 13; for bands of sections 2 and 3
this global index differs from the index within their own section, so
the "same element index" lookup holds only for section-1 bands. -/
theorem nextConfig_uses_global_index :
    (∀ i : ℕ, i < 40 → (bandConfigs.getD i default).lineIndex = i) ∧
    (∀ i : ℕ, i < 40 → nextConfigFor (bandConfigs.getD i default) 0 =
      section2Lines.getD (i % 13) default) ∧
    (∀ (cfg : LineConfig ℝ) (cur : ℤ), cur ≠ 0 →
      nextConfigFor cfg cur = section3Lines.getD (cfg.lineIndex % 13) default) := by
  refine ⟨?_, ?_, ?_⟩
  · intro i h
    rw [bandConfigs_getD i h]
  · intro i h
    rw [bandConfigs_getD i h, nextConfigFor_eq, if_pos rfl]
  · intro cfg cur h
    rw [nextConfigFor_eq, if_neg h]

/-- Witness for C4 at the first section-2 band (global index 14): the
code indexes section 2's list at `14 % 13 = 1`. -/
theorem nextConfig_uses_global_index_witness :
    nextConfigFor (bandConfigs.getD 14 default) 0 =
      section2Lines.getD (14 % 13) default :=
  nextConfig_uses_global_index.2.1 14 (by norm_num)

/-- The 14th concatenated configuration is the first entry of section
2's list. -/
lemma allLineConfigs_getD_14 :
    allLineConfigs.getD 14 default = section2Lines.getD 0 default := by
  have h1 : section1Lines.length = 14 := by simp [section1Lines]
  have h2 : section2Lines.length = 13 := by simp [section2Lines]
  have h12 : (14 : ℕ) < (section1Lines ++ section2Lines).length := by
    simp [h1, h2]
  show ((section1Lines ++ section2Lines) ++ section3Lines).getD 14 default = _
  rw [List.getD_eq_getElem?_getD, List.getD_eq_getElem?_getD,
    List.getElem?_append_left h12, List.getElem?_append_right (le_of_eq h1),
    h1]

/-- Counterexample for C4 as stated: the band at global index 14 is the
FIRST line of section 2 (its index within its own section is 0), yet
during the transition out of section 0 the code interpolates it toward
`section2Lines[14 % 13] = section2Lines[1]` (speed 0.124), not toward
the configuration at its own within-section index 0 (speed 0.12). -/
theorem nextConfig_adjacent_band_wrong_target :
    (bandConfigs.getD 14 default).sectionIndex = 1 ∧
    (nextConfigFor (bandConfigs.getD 14 default) 0).speed = 0.124 ∧
    (section2Lines.getD 0 default).speed = 0.12 ∧
    (nextConfigFor (bandConfigs.getD 14 default) 0).speed ≠
      (section2Lines.getD 0 default).speed := by
  have h14 := bandConfigs_getD 14 (by norm_num)
  have h2 : section2Lines.length = 13 := by simp [section2Lines]
  have hn : nextConfigFor (bandConfigs.getD 14 default) 0 =
      section2Lines.getD 1 default := by
    rw [h14, nextConfigFor_eq, if_pos rfl]
    norm_num
  have hg1 : (1 : ℕ) < section2Lines.length := by rw [h2]; norm_num
  have hg0 : (0 : ℕ) < section2Lines.length := by rw [h2]; norm_num
  have hs1 : (section2Lines.getD 1 default).speed = 0.124 := by
    rw [List.getD_eq_getElem _ _ hg1]
    simp only [section2Lines, List.getElem_ofFn]
    norm_num
  have hs0 : (section2Lines.getD 0 default).speed = 0.12 := by
    rw [List.getD_eq_getElem _ _ hg0]
    simp only [section2Lines, List.getElem_ofFn]
    norm_num
  refine ⟨?_, ?_, hs0, ?_⟩
  · rw [h14]
    show (allLineConfigs.getD 14 default).sectionIndex = 1
    rw [allLineConfigs_getD_14, List.getD_eq_getElem _ _ hg0]
    simp only [section2Lines, List.getElem_ofFn]
  · rw [hn, hs1]
  · rw [hn, hs1, hs0]
    norm_num

/-- The first branch of `smoothEase`. -/
lemma smoothEase_lt_half {t : K} (h : t < 0.5) :
    smoothEase t = 4 * t * t * t := by
  unfold smoothEase
  rw [if_pos h]

/-- The second branch of `smoothEase`. -/
lemma smoothEase_ge_half {t : K} (h : ¬ t < 0.5) :
    smoothEase t = 1 - (-2 * t + 2) ^ 3 / 2 := by
  unfold smoothEase
  rw [if_neg h]

/-- On the first viewport height of scrolling, the interpolation factor
reduces to its transition-window branch. -/
lemma interpFactor_on_unit (x : ℝ) (h0 : 0 ≤ x) (h1 : x < 1) :
    getInterpolationFactor x 1 =
      if 0.7 < x then smoothEase ((x - 0.7) / 0.3) else 0 := by
  have hfl : ⌊x / (1 : ℝ)⌋ = 0 := by
    rw [div_one]
    exact Int.floor_eq_zero_iff.mpr ⟨h0, h1⟩
  have htr : jsTrunc (x / (1 : ℝ)) = 0 := by
    unfold jsTrunc
    rw [if_pos (by rw [div_one]; exact h0), hfl]
  have hmod : jsMod x (1 : ℝ) = x := by
    unfold jsMod
    rw [htr]
    push_cast
    ring
  have hcs : getCurrentSection x (1 : ℝ) = 0 := by
    unfold getCurrentSection
    rw [hfl]
    decide
  show (if 0.7 < jsMod x 1 / 1 ∧ getCurrentSection x 1 < 2 then
      smoothEase ((jsMod x 1 / 1 - 0.7) / 0.3) else 0.0) = _
  rw [hmod, hcs, div_one]
  by_cases hx : (0.7 : ℝ) < x
  · rw [if_pos ⟨hx, by decide⟩, if_pos hx]
  · rw [if_neg (fun hc => hx hc.1), if_neg hx]
    norm_num

/-- At the exact section boundary the factor is 0 (progress resets). -/
lemma interpFactor_at_one : getInterpolationFactor (1 : ℝ) 1 = 0 := by
  have hfl : ⌊(1 : ℝ) / 1⌋ = 1 := by norm_num
  have htr : jsTrunc ((1 : ℝ) / 1) = 1 := by
    unfold jsTrunc
    rw [if_pos (by norm_num), hfl]
  have hmod : jsMod (1 : ℝ) 1 = 0 := by
    unfold jsMod
    rw [htr]
    push_cast
    ring
  show (if 0.7 < jsMod (1 : ℝ) 1 / 1 ∧ getCurrentSection (1 : ℝ) 1 < 2 then
      smoothEase ((jsMod (1 : ℝ) 1 / 1 - 0.7) / 0.3) else 0.0) = 0
  rw [hmod]
  norm_num

/-- The interpolation factor (as a function of scroll, viewport height
1) is continuous where the transition window opens, at scroll 0.7. -/
lemma interpFactor_continuousAt_window_open :
    ContinuousAt (fun s : ℝ => getInterpolationFactor s 1) 0.7 := by
  rw [Metric.continuousAt_iff]
  intro ε hε
  have hm : 0 < min ε 1 := lt_min hε one_pos
  refine ⟨min 0.1 (0.3 * (min ε 1 / 4)), lt_min (by norm_num) (by nlinarith), ?_⟩
  intro x hx
  rw [Real.dist_eq] at hx
  have hδ1 : |x - 0.7| < 0.1 := lt_of_lt_of_le hx (min_le_left _ _)
  have hδ2 : |x - 0.7| < 0.3 * (min ε 1 / 4) :=
    lt_of_lt_of_le hx (min_le_right _ _)
  have hxa : (0.6 : ℝ) < x := by
    have := (abs_lt.mp hδ1).1
    linarith
  have hxb : x < 0.8 := by
    have := (abs_lt.mp hδ1).2
    linarith
  rw [Real.dist_eq]
  have h07 : getInterpolationFactor (0.7 : ℝ) 1 = 0 := by
    rw [interpFactor_on_unit 0.7 (by norm_num) (by norm_num)]
    norm_num
  rw [h07, sub_zero, interpFactor_on_unit x (by linarith) (by linarith)]
  by_cases hx7 : (0.7 : ℝ) < x
  · rw [if_pos hx7]
    have ht0 : 0 < (x - 0.7) / 0.3 := div_pos (by linarith) (by norm_num)
    have htlt : (x - 0.7) / 0.3 < min ε 1 / 4 := by
      rw [div_lt_iff₀ (by norm_num : (0 : ℝ) < 0.3)]
      have h2 := (abs_lt.mp hδ2).2
      linarith
    have ht2 : (x - 0.7) / 0.3 < 0.5 := by
      have : min ε 1 ≤ 1 := min_le_right _ _
      linarith
    rw [smoothEase_lt_half ht2]
    have hval : 0 ≤ 4 * ((x - 0.7) / 0.3) * ((x - 0.7) / 0.3) *
        ((x - 0.7) / 0.3) := by positivity
    rw [abs_of_nonneg hval]
    have hε' : min ε 1 ≤ ε := min_le_left _ _
    nlinarith [mul_pos ht0 ht0, mul_pos (mul_pos ht0 ht0) ht0]
  · rw [if_neg hx7]
    simpa using hε

/-- The interpolation factor jumps from (limit) 1 to 0 at the boundary
into the next section: it is not continuous at scroll 1. -/
lemma interpFactor_notContinuousAt_boundary :
    ¬ ContinuousAt (fun s : ℝ => getInterpolationFactor s 1) 1 := by
  intro hc
  have h0 : Filter.Tendsto (fun s : ℝ => getInterpolationFactor s 1)
      (nhdsWithin 1 (Set.Iio 1)) (nhds 0) := by
    have h := hc.tendsto
    rw [interpFactor_at_one] at h
    exact h.mono_left nhdsWithin_le_nhds
  have hev : (fun s : ℝ => getInterpolationFactor s 1)
      =ᶠ[nhdsWithin 1 (Set.Iio 1)]
      fun x => 1 - (-2 * ((x - 0.7) / 0.3) + 2) ^ 3 / 2 := by
    filter_upwards [Ioo_mem_nhdsWithin_Iio
      (show (1 : ℝ) ∈ Set.Ioc 0.9 1 from ⟨by norm_num, le_refl 1⟩)] with x hx
    rw [interpFactor_on_unit x (by linarith [hx.1]) hx.2,
      if_pos (by linarith [hx.1] : (0.7 : ℝ) < x)]
    refine smoothEase_ge_half (not_lt.mpr ?_)
    rw [le_div_iff₀ (by norm_num : (0 : ℝ) < 0.3)]
    have := hx.1
    linarith
  have h1 : Filter.Tendsto (fun x : ℝ => 1 - (-2 * ((x - 0.7) / 0.3) + 2) ^ 3 / 2)
      (nhdsWithin 1 (Set.Iio 1)) (nhds 1) := by
    have hsub : Continuous fun x : ℝ => x - 0.7 := continuous_id.sub continuous_const
    have hdiv : Continuous fun x : ℝ => (x - 0.7) / 0.3 := hsub.div_const _
    have hlin : Continuous fun x : ℝ => -2 * ((x - 0.7) / 0.3) + 2 :=
      (continuous_const.mul hdiv).add continuous_const
    have hcont : Continuous fun x : ℝ =>
        1 - (-2 * ((x - 0.7) / 0.3) + 2) ^ 3 / 2 :=
      continuous_const.sub ((hlin.pow 3).div_const 2)
    have h := hcont.tendsto 1
    have hval : (1 : ℝ) - (-2 * (((1 : ℝ) - 0.7) / 0.3) + 2) ^ 3 / 2 = 1 := by
      norm_num
    rw [hval] at h
    exact h.mono_left nhdsWithin_le_nhds
  have := tendsto_nhds_unique (Filter.Tendsto.congr' hev h0) h1
  norm_num at this

/-- Claim C3, amended.  The blend factor is 0 whenever the section
progress is at most 0.7 (and always in the last section); in the
transition window (progress above 0.7, current section below 2) it
equals `smoothEase((progress - 0.7) / 0.3)`; as a function of scroll it
is continuous at the window opening (progress 0.7) but NOT continuous at
the boundary into the next section (progress 1.0), where it jumps from
limit 1 back to 0. -/
theorem interpolationFactor_piecewise_and_boundary :
    (∀ s H : ℚ, getSectionProgress s H ≤ 0.7 →
      getInterpolationFactor s H = 0) ∧
    (∀ s H : ℚ, 0.7 < getSectionProgress s H → getCurrentSection s H < 2 →
      getInterpolationFactor s H =
        smoothEase ((getSectionProgress s H - 0.7) / 0.3)) ∧
    (∀ s H : ℚ, ¬ getCurrentSection s H < 2 →
      getInterpolationFactor s H = 0) ∧
    ContinuousAt (fun s : ℝ => getInterpolationFactor s 1) 0.7 ∧
    ¬ ContinuousAt (fun s : ℝ => getInterpolationFactor s 1) 1 := by
  refine ⟨?_, ?_, ?_, interpFactor_continuousAt_window_open,
    interpFactor_notContinuousAt_boundary⟩
  · intro s H h
    show (if 0.7 < jsMod s H / H ∧ getCurrentSection s H < 2 then
        smoothEase ((jsMod s H / H - 0.7) / 0.3) else 0.0) = 0
    rw [if_neg fun hc => absurd hc.1 (not_lt.mpr h)]
    norm_num
  · intro s H h hcs
    show (if 0.7 < jsMod s H / H ∧ getCurrentSection s H < 2 then
        smoothEase ((jsMod s H / H - 0.7) / 0.3) else 0.0) =
      smoothEase ((getSectionProgress s H - 0.7) / 0.3)
    rw [if_pos ⟨h, hcs⟩]
    rfl
  · intro s H h
    show (if 0.7 < jsMod s H / H ∧ getCurrentSection s H < 2 then
        smoothEase ((jsMod s H / H - 0.7) / 0.3) else 0.0) = 0
    rw [if_neg fun hc => absurd hc.2 h]
    norm_num

/-- Witness for C3: at scroll 1/2 with viewport height 1 the progress is
1/2 which is at most 0.7, so the factor is 0. -/
theorem interpolationFactor_piecewise_and_boundary_witness :
    getInterpolationFactor (1 / 2 : ℚ) 1 = 0 :=
  interpolationFactor_piecewise_and_boundary.1 (1 / 2) 1
    (by norm_num [getSectionProgress, jsMod, jsTrunc])

/-- Counterexample for C3 as stated: the blend factor, as a function of
scroll (viewport height 1), is NOT continuous at the section boundary
scroll = 1 (progress 1.0): approaching the boundary from below it tends
to 1, but at the boundary the progress resets and the factor is 0. -/
theorem interpolationFactor_jump_at_section_boundary :
    ¬ ContinuousAt (fun s : ℝ => getInterpolationFactor s 1) 1 :=
  interpFactor_notContinuousAt_boundary

/-- Claim C8.  The math layer is deterministic: replaying the same trace
of time deltas and raw mouse/scroll samples from the same starting state
produces identical smoothed state, identical per-band uniforms, and
identical vertex-displacement and fragment-color samples — the noise
functions are deterministic functions of their inputs and no other
input enters the frame update. -/
theorem replay_deterministic (H : ℝ) (st : SimState)
    (tr₁ tr₂ : List FrameInput) (h : tr₁ = tr₂) :
    runFrames H st tr₁ = runFrames H st tr₂ ∧
    frameUniformsList H (runFrames H st tr₁) =
      frameUniformsList H (runFrames H st tr₂) ∧
    (∀ (pos : ℝ × ℝ × ℝ) (uv : ℝ × ℝ),
      (frameUniformsList H (runFrames H st tr₁)).map
          (fun u => vertexDisplaced u pos uv) =
        (frameUniformsList H (runFrames H st tr₂)).map
          (fun u => vertexDisplaced u pos uv)) ∧
    (∀ uv : ℝ × ℝ,
      (frameUniformsList H (runFrames H st tr₁)).map
          (fun u => fragmentColor u uv) =
        (frameUniformsList H (runFrames H st tr₂)).map
          (fun u => fragmentColor u uv)) := by
  subst h
  exact ⟨rfl, rfl, fun _ _ => rfl, fun _ => rfl⟩

/-- Witness for C8 on a concrete one-frame trace. -/
theorem replay_deterministic_witness :
    runFrames 1 ⟨0, (0, 0), 0, []⟩ [⟨1, (0, 0), 0⟩] =
      runFrames 1 ⟨0, (0, 0), 0, []⟩ [⟨1, (0, 0), 0⟩] :=
  (replay_deterministic 1 ⟨0, (0, 0), 0, []⟩ [⟨1, (0, 0), 0⟩]
    [⟨1, (0, 0), 0⟩] rfl).1

end HeroWave
